import Mathlib

/-!
# Verification of the Sonic-AI audio artifact pipeline

Shallow embedding of the audio codec (`utils/audioUtils.ts`, file
`src/unnamed/part_004`), the artifact vault (`src/App.tsx`), the export
filename logic (`src/components/AudioCard.tsx`) and the per-card playback
state machine (`src/components/AudioCard.tsx`), together with proofs of the
specified properties.

Byte buffers (`Uint8Array`) are modelled as `List Nat` with entries below
256; JS strings as Lean `String` / `List Char` (one element per UTF-16
code unit; all inputs of interest are in the basic plane); normalized PCM
samples (stored by the browser exactly, since every value `n / 32768` with
`|n| ≤ 32768` is representable in binary floating point) as `ℚ`.
-/

namespace SonicAI

/-! ## Binary codec: `src/unnamed/part_004` (audioUtils)

`decodeBase64` calls the browser builtin `atob`, whose behaviour is fixed by
the WHATWG HTML standard as the forgiving-base64 decode: strip ASCII
whitespace, strip up to two trailing `=` when the stripped length is a
multiple of 4, fail when the remaining length is congruent 1 mod 4 or a
character outside the base64 alphabet remains, otherwise decode 6-bit
groups into bytes.  The embedding below follows that algorithm step by
step; `decodeBase64` then reads the code units of the returned binary
string into a byte buffer, which is the identity on the decoded bytes. -/

/-- Value of a character in the standard base64 alphabet, `none` for a
character outside the alphabet. -/
def b64Val (c : Char) : Option Nat :=
  let n := c.toNat
  if 65 ≤ n ∧ n ≤ 90 then some (n - 65)
  else if 97 ≤ n ∧ n ≤ 122 then some (n - 97 + 26)
  else if 48 ≤ n ∧ n ≤ 57 then some (n - 48 + 52)
  else if n = 43 then some 62
  else if n = 47 then some 63
  else none

/-- ASCII whitespace in the sense of the WHATWG Infra standard
(TAB, LF, FF, CR, SPACE), removed by forgiving-base64 decode. -/
def isB64Ws (c : Char) : Bool :=
  c.toNat = 9 ∨ c.toNat = 10 ∨ c.toNat = 12 ∨ c.toNat = 13 ∨ c.toNat = 32

/-- Step 1 of forgiving-base64 decode: remove all ASCII whitespace. -/
def stripWs (l : List Char) : List Char :=
  l.filter (fun c => !(isB64Ws c))

/-- Step 2 of forgiving-base64 decode: when the length is a multiple of 4,
remove one or two trailing padding characters. -/
def stripPad (l : List Char) : List Char :=
  if l.length % 4 = 0 then
    match l.reverse with
    | '=' :: '=' :: rest => rest.reverse
    | '=' :: rest => rest.reverse
    | _ => l
  else l

/-- Alphabet values of every character, `none` if any character is outside
the base64 alphabet. -/
def b64Vals : List Char → Option (List Nat)
  | [] => some []
  | c :: rest =>
    match b64Val c, b64Vals rest with
    | some v, some vs => some (v :: vs)
    | _, _ => none

/-- Reassemble 6-bit alphabet values into bytes: each full group of four
values yields three bytes, a trailing group of two or three values yields
one or two bytes (the spilled low bits are discarded). -/
def b64Bytes : List Nat → List Nat
  | v1 :: v2 :: v3 :: v4 :: rest =>
    (v1 * 4 + v2 / 16) :: (v2 % 16 * 16 + v3 / 4) :: (v3 % 4 * 64 + v4) :: b64Bytes rest
  | [v1, v2] => [v1 * 4 + v2 / 16]
  | [v1, v2, v3] => [v1 * 4 + v2 / 16, v2 % 16 * 16 + v3 / 4]
  | _ => []

/-- Forgiving-base64 decode (the browser `atob` builtin, per the WHATWG
HTML standard), returning the bytes of the binary string, or `none` when
`atob` throws `InvalidCharacterError`. -/
def atob (s : String) : Option (List Nat) :=
  let d := stripPad (stripWs s.data)
  if d.length % 4 = 1 then none
  else
    match b64Vals d with
    | none => none
    | some vs => some (b64Bytes vs)

/-- Embedding of `decodeBase64` from `audioUtils`: `atob` followed by
reading each code unit of the binary string into a `Uint8Array`, which
returns exactly the decoded bytes. -/
def decodeBase64 (s : String) : Option (List Nat) :=
  atob s

/-- Byte at index `i` of a buffer (0 beyond the end, mirroring that the
`Int16Array` view never reads past `byteLength / 2 * 2` bytes). -/
def byteAt : List Nat → Nat → Nat
  | [], _ => 0
  | b :: _, 0 => b
  | _ :: l, n + 1 => byteAt l n

/-- Two's-complement reading of a 16-bit value. -/
def toSigned16 (n : Nat) : Int :=
  if n < 32768 then (n : Int) else (n : Int) - 65536

/-- Element `i` of the `Int16Array` little-endian view of the byte buffer,
as built by `new Int16Array(data.buffer, data.byteOffset, data.byteLength / 2)`
in `decodeAudioData`. -/
def dataInt16 (l : List Nat) (i : Nat) : Int :=
  toSigned16 (byteAt l (2 * i) + 256 * byteAt l (2 * i + 1))

/-- Embedding of `decodeAudioData` (mono case, `numChannels = 1`, as called
by `AudioCard`): the frame count is `byteLength / 2` — JS `ToIndex`
truncates `byteLength / 2` toward zero, so an odd byte length yields
`⌊L / 2⌋` frames — and channel sample `i` is `dataInt16[i] / 32768.0`.
When the frame count is 0 (byte length 0 or 1), the source's
`ctx.createBuffer(numChannels, frameCount, sampleRate)` call throws
`NotSupportedError` — the Web Audio API rejects a zero `frameCount`
argument — modelled here as `none`. -/
def decodeAudioData (l : List Nat) : Option (List ℚ) :=
  if l.length / 2 = 0 then none
  else some ((List.range (l.length / 2)).map (fun i => ((dataInt16 l i : ℚ) / 32768)))

/-- Little-endian bytes of a 16-bit field as written by
`DataView.setUint16(off, x, true)` (the value is taken mod 2^16). -/
def le16 (x : Nat) : List Nat :=
  [x % 256, x / 256 % 256]

/-- Little-endian bytes of a 32-bit field as written by
`DataView.setUint32(off, x, true)` (the value is taken mod 2^32). -/
def le32 (x : Nat) : List Nat :=
  [x % 256, x / 256 % 256, x / 65536 % 256, x / 16777216 % 256]

/-- Big-endian bytes of a 32-bit field as written by
`DataView.setUint32(off, x, false)`, used for the four-character codes. -/
def be32 (x : Nat) : List Nat :=
  [x / 16777216 % 256, x / 65536 % 256, x / 256 % 256, x % 256]

/-- The 44-byte WAV header assembled by `pcmToWav`, one chunk per
`DataView` write, in the order and at the offsets of the source (the
writes are contiguous and non-overlapping, so the buffer is their
concatenation). -/
def wavHeader (dataLen sampleRate : Nat) : List Nat :=
  be32 0x52494646 ++
  le32 (36 + dataLen) ++
  be32 0x57415645 ++
  be32 0x666d7420 ++
  le32 16 ++
  le16 1 ++
  le16 1 ++
  le32 sampleRate ++
  le32 (sampleRate * 1 * 16 / 8) ++
  le16 (1 * 16 / 8) ++
  le16 16 ++
  be32 0x64617461 ++
  le32 dataLen

/-- Embedding of `pcmToWav`: the returned `Blob` is the 44-byte header
followed by the PCM bytes unmodified. -/
def pcmToWav (pcmData : List Nat) (sampleRate : Nat) : List Nat :=
  wavHeader pcmData.length sampleRate ++ pcmData

/-- Little-endian 16-bit read at a byte offset of a buffer. -/
def readLE16 (l : List Nat) (off : Nat) : Nat :=
  byteAt l off + 256 * byteAt l (off + 1)

/-- Little-endian 32-bit read at a byte offset of a buffer. -/
def readLE32 (l : List Nat) (off : Nat) : Nat :=
  byteAt l off + 256 * byteAt l (off + 1) + 65536 * byteAt l (off + 2) +
    16777216 * byteAt l (off + 3)

/-! ## Artifact vault: `src/App.tsx` -/

/-- Synthesis knob snapshot (`SpeechParams` in `types.ts`). -/
structure SpeechParams where
  rate : ℚ
  volume : ℚ
  pitch : ℚ
  pauseIntensity : ℚ
  naturalness : ℚ
  stability : ℚ
  clarity : ℚ
deriving DecidableEq

/-- Artifact kind (`type: 'single' | 'multi'` in `types.ts`). -/
inductive AudioType where
  | single
  | multi
deriving DecidableEq

/-- Embedding of the `GeneratedAudio` record of `types.ts`. -/
structure GeneratedAudio where
  id : String
  text : String
  timestamp : Nat
  voiceName : String
  type : AudioType
  audioData : Option String
  params : Option SpeechParams
  language : Option String
deriving DecidableEq

/-- The artifact record built by `handleGenerateAudio` in `App.tsx`: the
displayed text is `singleText.slice(0, 100) + '...'` (JS `slice(0, 100)`
keeps the first 100 code units, modelled as the first 100 characters),
applied unconditionally. -/
def newAudio (singleText : String) (id : String) (timestamp : Nat)
    (voiceName : String) (ty : AudioType) (base64 : String)
    (params : SpeechParams) (language : String) : GeneratedAudio :=
  { id := id
    text := String.mk (singleText.data.take 100) ++ "..."
    timestamp := timestamp
    voiceName := voiceName
    type := ty
    audioData := some base64
    params := some params
    language := some language }

/-- Vault insertion, `setHistory(prev => [newAudio, ...prev])` in
`handleGenerateAudio`: prepend at the front.  The operation is total, so
`add` never fails. -/
def vaultAdd (a : GeneratedAudio) (v : List GeneratedAudio) : List GeneratedAudio :=
  a :: v

/-- Vault deletion, `onDelete={(id) => setHistory(h => h.filter(x => x.id !== id))}`
in `App.tsx`. -/
def vaultRemove (v : List GeneratedAudio) (id : String) : List GeneratedAudio :=
  v.filter (fun x => x.id ≠ id)

/-! ## Export filename: `src/components/AudioCard.tsx` -/

/-- Whitespace in the sense of the JS regular-expression class `\s`
(the code points matched by `/\s/`). -/
def isJsWs (c : Char) : Bool :=
  let n := c.toNat
  (9 ≤ n ∧ n ≤ 13) ∨ n = 32 ∨ n = 160 ∨ n = 5760 ∨
  (8192 ≤ n ∧ n ≤ 8202) ∨ n = 8232 ∨ n = 8233 ∨ n = 8239 ∨ n = 8287 ∨
  n = 12288 ∨ n = 65279

/-- Effect of `.replace(/[()]/g, '')`: delete every parenthesis. -/
def removeParens (l : List Char) : List Char :=
  l.filter (fun c => !(c = '(' ∨ c = ')'))

/-- Effect of `.replace(/\s+/g, '_')`: replace each maximal run of
whitespace characters by a single underscore. -/
def collapseWs : List Char → List Char
  | [] => []
  | [c] => if isJsWs c then ['_'] else [c]
  | c1 :: c2 :: rest =>
    if isJsWs c1 then
      if isJsWs c2 then collapseWs (c2 :: rest)
      else '_' :: collapseWs (c2 :: rest)
    else c1 :: collapseWs (c2 :: rest)

/-- The voice-name token of the download filename:
`audio.voiceName.replace(/[()]/g, '').replace(/\s+/g, '_').toLowerCase()`
(`toLowerCase` modelled on its ASCII action, which covers every voice
label the app produces). -/
def normalizeVoiceName (s : String) : String :=
  String.mk ((collapseWs (removeParens s.data)).map Char.toLower)

/-- Embedding of the filename built by `handleDownload` in
`AudioCard.tsx`; `now` is the value of `Date.now()` at the moment of the
download click. -/
def handleDownloadFilename (voiceName : String) (now : Nat) : String :=
  "sonic_ai_" ++ normalizeVoiceName voiceName ++ "_" ++ toString now ++ ".wav"

/-- Modelled from the spec: the filename pattern
`<prefix>_<normalized-voice-label>_<epoch-millis>.wav` of section 4.4/6,
with the voice label normalized by mapping every non-alphanumeric
character to an underscore and lower-casing, and with the artifact's
creation time as the epoch-millis component. -/
def specFilename (voiceLabel : String) (createdAt : Nat) : String :=
  "sonic_ai_" ++
    String.mk (voiceLabel.data.map (fun c => if c.isAlphanum then c.toLower else '_')) ++
    "_" ++ toString createdAt ++ ".wav"

/-! ## Per-card playback state machine: `src/components/AudioCard.tsx`

`handleTogglePlayback` is modelled at the granularity the spec fixes for
it: the four events — press while idle (start), press while playing
(stop), natural completion (`onended`), unmount stop — are atomic steps.
The state tracks the card's `isPlaying` flag, its `sourceRef`, the list of
handles started by this card that are still audible (`active`), and a
fresh-handle counter. -/

/-- State of one artifact card's playback machinery. -/
structure CardState where
  isPlaying : Bool
  sourceRef : Option Nat
  active : List Nat
  nextId : Nat
deriving DecidableEq

/-- Initial card state: not playing, no source, nothing audible. -/
def initCardState : CardState :=
  { isPlaying := false, sourceRef := none, active := [], nextId := 0 }

/-- Stopping the referenced source (`sourceRef.current.stop()` guarded by
a null check): the handle stops being audible. -/
def stopSource (active : List Nat) : Option Nat → List Nat
  | none => active
  | some h => active.erase h

/-- Atomic transitions of `handleTogglePlayback` and the `onended`
callback.  A press while `isPlaying` stops the current source and clears
the state; a press while idle starts a fresh handle and records it; the
`onended` callback of the current source clears the playing state and the
handle stops being audible. -/
inductive PlayStep : CardState → CardState → Prop where
  | toggleOff (s : CardState) (h : s.isPlaying = true) :
      PlayStep s { isPlaying := false, sourceRef := none,
                   active := stopSource s.active s.sourceRef, nextId := s.nextId }
  | toggleOn (s : CardState) (h : s.isPlaying = false) :
      PlayStep s { isPlaying := true, sourceRef := some s.nextId,
                   active := s.nextId :: s.active, nextId := s.nextId + 1 }
  | ended (s : CardState) (hId : Nat) (h : s.sourceRef = some hId) :
      PlayStep s { isPlaying := false, sourceRef := none,
                   active := s.active.erase hId, nextId := s.nextId }

/-- States reachable from the initial card state by playback events. -/
def ReachableCard (s : CardState) : Prop :=
  Relation.ReflTransGen PlayStep initCardState s

/-- Invariant of the card machine: the audible handles are exactly the
referenced source, and the playing flag mirrors the reference. -/
def CardInv (s : CardState) : Prop :=
  (∀ h, s.sourceRef = some h → s.active = [h]) ∧
  (s.sourceRef = none → s.active = []) ∧
  (s.isPlaying = true ↔ s.sourceRef.isSome)

/-! ## Theorems -/

theorem byteAt_eq_getD (l : List Nat) (n : Nat) : byteAt l n = l.getD n 0 := by
  induction l generalizing n with
  | nil => cases n <;> simp [byteAt]
  | cons b rest ih => cases n <;> simp [byteAt, ih]

theorem collapseWs_mem {l : List Char} {c : Char} (hc : c ∈ collapseWs l) :
    c = '_' ∨ (c ∈ l ∧ isJsWs c = false) := by
  induction l with
  | nil => simp [collapseWs] at hc
  | cons c1 rest ih =>
    cases rest with
    | nil =>
      by_cases h1 : isJsWs c1
      · simp [collapseWs, h1] at hc
        exact Or.inl hc
      · simp [collapseWs, h1] at hc
        subst hc
        exact Or.inr ⟨List.mem_singleton_self c, by simpa using h1⟩
    | cons c2 rest2 =>
      simp only [collapseWs] at hc
      by_cases h1 : isJsWs c1
      · by_cases h2 : isJsWs c2
        · rw [if_pos h1, if_pos h2] at hc
          rcases ih hc with h | ⟨hm, hw⟩
          · exact Or.inl h
          · exact Or.inr ⟨List.mem_cons_of_mem c1 hm, hw⟩
        · rw [if_pos h1, if_neg h2, List.mem_cons] at hc
          rcases hc with hc | hc
          · exact Or.inl hc
          · rcases ih hc with h | ⟨hm, hw⟩
            · exact Or.inl h
            · exact Or.inr ⟨List.mem_cons_of_mem c1 hm, hw⟩
      · rw [if_neg h1, List.mem_cons] at hc
        rcases hc with hc | hc
        · subst hc
          exact Or.inr ⟨List.mem_cons_self c (c2 :: rest2), by simpa using h1⟩
        · rcases ih hc with h | ⟨hm, hw⟩
          · exact Or.inl h
          · exact Or.inr ⟨List.mem_cons_of_mem c1 hm, hw⟩

theorem b64Vals_none_iff (l : List Char) :
    b64Vals l = none ↔ ∃ c ∈ l, b64Val c = none := by
  induction l with
  | nil => simp [b64Vals]
  | cons c rest ih =>
    cases hb : b64Val c with
    | none => simp [b64Vals, hb]
    | some v =>
      cases hr : b64Vals rest with
      | none =>
        simp only [b64Vals, hb, hr]
        simp only [hr] at ih
        simp only [true_iff] at ih
        simp [ih]
      | some vs =>
        simp only [b64Vals, hb, hr]
        simp only [hr] at ih
        constructor
        · intro h
          exact absurd h (by simp)
        · rintro ⟨d, hd, hdn⟩
          rw [List.mem_cons] at hd
          rcases hd with hd | hd
          · rw [hd] at hdn
            simp [hdn] at hb
          · exact absurd (ih.mpr ⟨d, hd, hdn⟩) (by simp)

/-- C1: for any even-length byte buffer, the WAV container is the 44-byte
header immediately followed by the unmodified PCM bytes, so stripping the
first 44 bytes of the output returns the input byte for byte. -/
theorem pcmToWav_roundtrip (B : List Nat) (sampleRate : Nat) (h : Even B.length) :
    (wavHeader B.length sampleRate).length = 44 ∧
    pcmToWav B sampleRate = wavHeader B.length sampleRate ++ B ∧
    (pcmToWav B sampleRate).drop 44 = B := by
  have hlen : (wavHeader B.length sampleRate).length = 44 := rfl
  refine ⟨hlen, rfl, ?_⟩
  calc (pcmToWav B sampleRate).drop 44
      = (wavHeader B.length sampleRate ++ B).drop (wavHeader B.length sampleRate).length := by
        rw [hlen]; rfl
    _ = B := List.drop_left _ _

/-- Witness for C1 at the concrete even-length buffer `[1, 2]` and sample
rate 24000. -/
theorem pcmToWav_roundtrip_witness :
    Even ([1, 2] : List Nat).length ∧ (pcmToWav [1, 2] 24000).drop 44 = [1, 2] :=
  ⟨by decide, (pcmToWav_roundtrip [1, 2] 24000 (by decide)).2.2⟩

theorem pcmToWav_bytes (pcm : List Nat) (sr : Nat) :
    pcmToWav pcm sr =
      82 :: 73 :: 70 :: 70 ::
      (36 + pcm.length) % 256 :: ((36 + pcm.length) / 256 % 256) ::
        ((36 + pcm.length) / 65536 % 256) :: ((36 + pcm.length) / 16777216 % 256) ::
      87 :: 65 :: 86 :: 69 ::
      102 :: 109 :: 116 :: 32 ::
      16 :: 0 :: 0 :: 0 ::
      1 :: 0 ::
      1 :: 0 ::
      sr % 256 :: (sr / 256 % 256) :: (sr / 65536 % 256) :: (sr / 16777216 % 256) ::
      (sr * 16 / 8 % 256) :: (sr * 16 / 8 / 256 % 256) ::
        (sr * 16 / 8 / 65536 % 256) :: (sr * 16 / 8 / 16777216 % 256) ::
      2 :: 0 ::
      16 :: 0 ::
      100 :: 97 :: 116 :: 97 ::
      pcm.length % 256 :: (pcm.length / 256 % 256) ::
        (pcm.length / 65536 % 256) :: (pcm.length / 16777216 % 256) ::
      pcm := by
  simp [pcmToWav, wavHeader, le32, be32, le16]

/-- C2: for a payload of length N, the container has byte length `44 + N`;
"RIFF" sits at offset 0, the little-endian uint32 `36 + N` at offset 4,
"WAVE" at 8, "fmt " at 12, 16 at 16, audio format 1 at 20, channel count 1
at 22, the sample rate at 24, byte rate `sampleRate * 1 * 16 / 8` at 28,
block align 2 at 32, bits per sample 16 at 34, "data" at 36 and the
little-endian uint32 N at offset 40.  The bounds keep the two uint32
fields inside their 32-bit range. -/
theorem pcmToWav_header_fields (pcm : List Nat) (sampleRate : Nat)
    (hN : 36 + pcm.length < 4294967296) (hsr : sampleRate < 2147483648) :
    (pcmToWav pcm sampleRate).length = 44 + pcm.length ∧
    (pcmToWav pcm sampleRate).take 4 = [0x52, 0x49, 0x46, 0x46] ∧
    readLE32 (pcmToWav pcm sampleRate) 4 = 36 + pcm.length ∧
    ((pcmToWav pcm sampleRate).drop 8).take 4 = [0x57, 0x41, 0x56, 0x45] ∧
    ((pcmToWav pcm sampleRate).drop 12).take 4 = [0x66, 0x6d, 0x74, 0x20] ∧
    readLE32 (pcmToWav pcm sampleRate) 16 = 16 ∧
    readLE16 (pcmToWav pcm sampleRate) 20 = 1 ∧
    readLE16 (pcmToWav pcm sampleRate) 22 = 1 ∧
    readLE32 (pcmToWav pcm sampleRate) 24 = sampleRate ∧
    readLE32 (pcmToWav pcm sampleRate) 28 = sampleRate * 1 * 16 / 8 ∧
    readLE16 (pcmToWav pcm sampleRate) 32 = 2 ∧
    readLE16 (pcmToWav pcm sampleRate) 34 = 16 ∧
    ((pcmToWav pcm sampleRate).drop 36).take 4 = [0x64, 0x61, 0x74, 0x61] ∧
    readLE32 (pcmToWav pcm sampleRate) 40 = pcm.length := by
  refine ⟨?_, ?_, ?_, ?_, ?_, ?_, ?_, ?_, ?_, ?_, ?_, ?_, ?_, ?_⟩ <;>
    rw [pcmToWav_bytes]
  · simp only [List.length_cons]
    omega
  · rfl
  · show (36 + pcm.length) % 256 + 256 * ((36 + pcm.length) / 256 % 256) +
        65536 * ((36 + pcm.length) / 65536 % 256) +
        16777216 * ((36 + pcm.length) / 16777216 % 256) = 36 + pcm.length
    omega
  · rfl
  · rfl
  · rfl
  · rfl
  · rfl
  · show sampleRate % 256 + 256 * (sampleRate / 256 % 256) +
        65536 * (sampleRate / 65536 % 256) + 16777216 * (sampleRate / 16777216 % 256) =
      sampleRate
    omega
  · show sampleRate * 16 / 8 % 256 + 256 * (sampleRate * 16 / 8 / 256 % 256) +
        65536 * (sampleRate * 16 / 8 / 65536 % 256) +
        16777216 * (sampleRate * 16 / 8 / 16777216 % 256) = sampleRate * 1 * 16 / 8
    omega
  · rfl
  · rfl
  · rfl
  · show pcm.length % 256 + 256 * (pcm.length / 256 % 256) +
        65536 * (pcm.length / 65536 % 256) + 16777216 * (pcm.length / 16777216 % 256) =
      pcm.length
    omega

/-- Witness for C2 at the concrete payload `[7, 8]` and sample rate 24000. -/
theorem pcmToWav_header_fields_witness :
    36 + ([7, 8] : List Nat).length < 4294967296 ∧ 24000 < 2147483648 ∧
      readLE32 (pcmToWav [7, 8] 24000) 4 = 36 + ([7, 8] : List Nat).length :=
  ⟨by norm_num, by norm_num,
    (pcmToWav_header_fields [7, 8] 24000 (by norm_num) (by norm_num)).2.2.1⟩

/-- Counterexample to C3: the empty buffer has even length 0, yet the
decode does not produce `0 / 2 = 0` samples — the frame count is 0 and
`ctx.createBuffer(1, 0, sampleRate)` throws `NotSupportedError`. -/
theorem decodeAudioData_spec_counterexample :
    Even ([] : List Nat).length ∧ decodeAudioData ([] : List Nat) = none := by
  constructor
  · decide
  · rfl

/-- C3 as amended: on a nonempty even-length buffer of L bytes the decode
succeeds and yields exactly `L / 2` samples, sample `i` being the 16-bit
signed little-endian integer of byte pair `(2i, 2i + 1)` divided by 32768;
the boundary pairs `0x00 0x80`, `0xFF 0x7F` and `0x00 0x00` decode to
`-1`, `32767 / 32768` and `0` exactly.  The empty buffer, though of even
length, instead fails with `NotSupportedError` from `ctx.createBuffer`. -/
theorem decodeAudioData_spec (l : List Nat) (h : Even l.length) (hne : l ≠ []) :
    (∃ samples, decodeAudioData l = some samples ∧
      samples.length = l.length / 2 ∧
      (∀ i, i < l.length / 2 → samples.getD i 0 = (dataInt16 l i : ℚ) / 32768)) ∧
    decodeAudioData [0x00, 0x80] = some [-1] ∧
    decodeAudioData [0xFF, 0x7F] = some [(32767 : ℚ) / 32768] ∧
    decodeAudioData [0x00, 0x00] = some [0] ∧
    decodeAudioData ([] : List Nat) = none := by
  have hlz : l.length ≠ 0 := by
    intro h0
    exact hne (List.length_eq_zero.mp h0)
  have h2 : l.length / 2 ≠ 0 := by
    obtain ⟨k, hk⟩ := h
    omega
  refine ⟨⟨(List.range (l.length / 2)).map (fun i => ((dataInt16 l i : ℚ) / 32768)),
      ?_, ?_, ?_⟩, ?_, ?_, ?_, rfl⟩
  · rw [decodeAudioData, if_neg h2]
  · simp
  · intro i hi
    rw [List.getD_eq_getElem?_getD]
    simp [List.getElem?_map, List.getElem?_range hi]
  · have hd : dataInt16 [0x00, 0x80] 0 = -32768 := by decide
    rw [show decodeAudioData [0x00, 0x80] =
        some ((List.range 1).map fun i => ((dataInt16 [0x00, 0x80] i : ℚ) / 32768)) from rfl]
    simp only [show List.range 1 = [0] from rfl, List.map_cons, List.map_nil, hd]
    norm_num
  · have hd : dataInt16 [0xFF, 0x7F] 0 = 32767 := by decide
    rw [show decodeAudioData [0xFF, 0x7F] =
        some ((List.range 1).map fun i => ((dataInt16 [0xFF, 0x7F] i : ℚ) / 32768)) from rfl]
    simp only [show List.range 1 = [0] from rfl, List.map_cons, List.map_nil, hd]
    norm_num
  · have hd : dataInt16 [0x00, 0x00] 0 = 0 := by decide
    rw [show decodeAudioData [0x00, 0x00] =
        some ((List.range 1).map fun i => ((dataInt16 [0x00, 0x00] i : ℚ) / 32768)) from rfl]
    simp only [show List.range 1 = [0] from rfl, List.map_cons, List.map_nil, hd]
    norm_num

/-- Witness for C3's amended statement at the concrete buffer
`[0x00, 0x80]`. -/
theorem decodeAudioData_spec_witness :
    Even ([0x00, 0x80] : List Nat).length ∧ ([0x00, 0x80] : List Nat) ≠ [] ∧
      decodeAudioData [0x00, 0x80] = some [-1] :=
  ⟨by decide, by decide, (decodeAudioData_spec [0x00, 0x80] (by decide) (by decide)).2.1⟩

/-- Counterexample to C4: a 3-byte buffer does not fail — JS `ToIndex` of
`byteLength / 2 = 1.5` truncates to 1, so `decodeAudioData` silently
yields one sample and no error. -/
theorem decodeAudioData_odd_counterexample :
    decodeAudioData [0, 0, 0] = some [0] ∧ decodeAudioData [0, 0, 0] ≠ none := by
  have hd : dataInt16 [0, 0, 0] 0 = 0 := by decide
  have h1 : decodeAudioData [0, 0, 0] = some [0] := by
    rw [show decodeAudioData [0, 0, 0] =
        some ((List.range 1).map fun i => ((dataInt16 [0, 0, 0] i : ℚ) / 32768)) from rfl]
    simp only [show List.range 1 = [0] from rfl, List.map_cons, List.map_nil, hd]
    norm_num
  refine ⟨h1, ?_⟩
  rw [h1]
  exact Option.some_ne_none _

/-- C4 as amended: the code has no `TruncatedFrame` error.  On an
odd-length buffer of at least 3 bytes the decode succeeds, produces
`⌊L / 2⌋` samples, and behaves exactly as if the trailing byte had been
dropped; the only odd length that fails is the 1-byte buffer, whose
`Int16Array` view is empty, so the frame count is 0 and
`ctx.createBuffer` throws `NotSupportedError` — not `TruncatedFrame`. -/
theorem decodeAudioData_odd (l : List Nat) (h : ¬ Even l.length) (h3 : 3 ≤ l.length) :
    (∃ samples, decodeAudioData l = some samples ∧ samples.length = (l.length - 1) / 2) ∧
    decodeAudioData l = decodeAudioData l.dropLast ∧
    (∀ b : Nat, decodeAudioData [b] = none) := by
  have hodd : l.length % 2 = 1 := by
    rcases Nat.even_or_odd l.length with he | ho
    · exact absurd he h
    · obtain ⟨k, hk⟩ := ho
      omega
  have hdl : l.dropLast.length = l.length - 1 := by
    simp [List.length_dropLast]
  have h2 : l.length / 2 ≠ 0 := by omega
  have h2d : l.dropLast.length / 2 ≠ 0 := by rw [hdl]; omega
  have hhalf : l.dropLast.length / 2 = l.length / 2 := by rw [hdl]; omega
  refine ⟨⟨(List.range (l.length / 2)).map (fun i => ((dataInt16 l i : ℚ) / 32768)),
      ?_, ?_⟩, ?_, ?_⟩
  · rw [decodeAudioData, if_neg h2]
  · simp only [List.length_map, List.length_range]
    omega
  · simp only [decodeAudioData]
    rw [if_neg h2, if_neg h2d, hhalf]
    refine congrArg some (List.map_congr_left ?_)
    intro i hi
    rw [List.mem_range] at hi
    have hb : ∀ j, j < l.length - 1 → byteAt l.dropLast j = byteAt l j := by
      intro j hj
      rw [byteAt_eq_getD, byteAt_eq_getD, List.getD_eq_getElem?_getD,
        List.getD_eq_getElem?_getD, List.dropLast_eq_take, List.getElem?_take,
        if_pos hj]
    rw [dataInt16, dataInt16, hb (2 * i) (by omega), hb (2 * i + 1) (by omega)]
  · intro b
    rw [decodeAudioData]
    norm_num

/-- Witness for C4's amended statement at the concrete odd buffer
`[0, 0, 0]`. -/
theorem decodeAudioData_odd_witness :
    ¬ Even ([0, 0, 0] : List Nat).length ∧ 3 ≤ ([0, 0, 0] : List Nat).length ∧
      decodeAudioData [0, 0, 0] = decodeAudioData ([0, 0, 0] : List Nat).dropLast :=
  ⟨by decide, by decide, (decodeAudioData_odd [0, 0, 0] (by decide) (by decide)).2.1⟩

theorem cardInv_init : CardInv initCardState := by
  refine ⟨?_, ?_, ?_⟩ <;> simp [initCardState, CardInv]

theorem cardInv_step {s t : CardState} (hs : CardInv s) (hst : PlayStep s t) :
    CardInv t := by
  obtain ⟨h1, h2, h3⟩ := hs
  cases hst with
  | toggleOff h =>
    refine ⟨by simp, ?_, by simp⟩
    intro _
    cases hr : s.sourceRef with
    | none => simpa [stopSource, hr] using h2 hr
    | some a => simp [stopSource, hr, h1 a hr]
  | toggleOn h =>
    have hnone : s.sourceRef = none := by
      cases hr : s.sourceRef with
      | none => rfl
      | some a =>
        have := h3.mpr (by simp [hr])
        simp [this] at h
    refine ⟨?_, by simp, by simp⟩
    intro hh hhh
    simp at hhh
    simp [h2 hnone, hhh]
  | ended hId h =>
    refine ⟨by simp, ?_, by simp⟩
    intro _
    simp [h1 hId h]

theorem cardInv_reachable {s : CardState} (hs : ReachableCard s) : CardInv s := by
  induction hs with
  | refl => exact cardInv_init
  | tail _ hstep ih => exact cardInv_step ih hstep

/-- C9: in every state reachable by the per-card playback events, at most
one handle for the artifact is audible — two playbacks originating from
the same card never overlap — and whenever the card is idle no handle is
audible at all, so a new playback only ever starts once the previous
handle has been stopped or has completed. -/
theorem playback_exclusive (s : CardState) (hs : ReachableCard s) :
    s.active.length ≤ 1 ∧ (s.isPlaying = false → s.active = []) := by
  obtain ⟨h1, h2, h3⟩ := cardInv_reachable hs
  constructor
  · cases hr : s.sourceRef with
    | none => simp [h2 hr]
    | some a => simp [h1 a hr]
  · intro hp
    cases hr : s.sourceRef with
    | none => exact h2 hr
    | some a =>
      have := h3.mpr (by simp [hr])
      simp [this] at hp

/-- Witness for C9: the initial state is reachable and satisfies the
exclusivity bound. -/
theorem playback_exclusive_witness :
    ReachableCard initCardState ∧
      initCardState.active.length ≤ 1 ∧
      (initCardState.isPlaying = false → initCardState.active = []) :=
  ⟨Relation.ReflTransGen.refl,
    playback_exclusive initCardState Relation.ReflTransGen.refl⟩

/-- C5: insertion always prepends, so adding artifacts A then B then C to
any vault yields the sequence `[C, B, A]` followed by the prior contents;
`vaultAdd` is total, so adding never fails. -/
theorem vaultAdd_order (v : List GeneratedAudio) (A B C : GeneratedAudio) :
    vaultAdd C (vaultAdd B (vaultAdd A v)) = [C, B, A] ++ v := rfl

/-- C6: removal deletes every artifact carrying the given id, removing an
absent id leaves the vault unchanged (and raises no error — the operation
is total), and removing twice equals removing once. -/
theorem vaultRemove_spec (v : List GeneratedAudio) (id : String) :
    (∀ a ∈ vaultRemove v id, a.id ≠ id) ∧
    (id ∉ v.map GeneratedAudio.id → vaultRemove v id = v) ∧
    vaultRemove (vaultRemove v id) id = vaultRemove v id := by
  refine ⟨?_, ?_, ?_⟩
  · intro a ha
    rw [vaultRemove, List.mem_filter] at ha
    simpa using ha.2
  · intro hid
    rw [vaultRemove]
    apply List.filter_eq_self.mpr
    intro a ha
    simp only [decide_eq_true_eq]
    intro he
    exact hid (he ▸ List.mem_map_of_mem GeneratedAudio.id ha)
  · simp only [vaultRemove, List.filter_filter]
    simp

/-- Sample artifact used to instantiate the vault theorems. -/
def sampleArtifact : GeneratedAudio :=
  { id := "a", text := "t", timestamp := 0, voiceName := "Kore", type := .single,
    audioData := none, params := none, language := none }

/-- Witness for C6: removing the absent id "b" from the one-artifact vault
`[sampleArtifact]` leaves it unchanged. -/
theorem vaultRemove_spec_witness :
    "b" ∉ [sampleArtifact].map GeneratedAudio.id ∧
      vaultRemove [sampleArtifact] "b" = [sampleArtifact] :=
  ⟨by decide, (vaultRemove_spec [sampleArtifact] "b").2.1 (by decide)⟩

/-- Counterexample to C7: the code keeps non-alphanumeric characters other
than parentheses and whitespace (a hyphen survives where the spec collapses
it to an underscore), and it stamps the filename with `Date.now()` at
export time rather than with the artifact's creation time. -/
theorem handleDownloadFilename_counterexample :
    handleDownloadFilename "A-B" 5 ≠ specFilename "A-B" 5 ∧
    handleDownloadFilename "Kore" 10 ≠ specFilename "Kore" 5 := by
  constructor
  · decide
  · decide

/-- C7 as amended: the suggested filename is
`sonic_ai_<token>_<millis>.wav`, where the token is the voice label with
parentheses removed, each whitespace run replaced by one underscore and
the rest lower-cased, and `<millis>` is the time of the export action; the
token stage before lower-casing contains no whitespace and no
parenthesis. -/
theorem handleDownloadFilename_amended (voiceName : String) (now : Nat) :
    handleDownloadFilename voiceName now =
      "sonic_ai_" ++ String.mk ((collapseWs (removeParens voiceName.data)).map Char.toLower) ++
        "_" ++ toString now ++ ".wav" ∧
    ∀ c ∈ collapseWs (removeParens voiceName.data),
      isJsWs c = false ∧ c ≠ '(' ∧ c ≠ ')' := by
  refine ⟨rfl, ?_⟩
  intro c hc
  rcases collapseWs_mem hc with h | ⟨hm, hw⟩
  · subst h
    refine ⟨by decide, by decide, by decide⟩
  · rw [removeParens, List.mem_filter] at hm
    have hp : ¬(c = '(' ∨ c = ')') := by simpa using hm.2
    exact ⟨hw, fun hcp => hp (Or.inl hcp), fun hcp => hp (Or.inr hcp)⟩

/-- Witness for C7's amended statement at the voice label
"Zephyr (Natural)" and export instant 7. -/
theorem handleDownloadFilename_amended_witness :
    handleDownloadFilename "Zephyr (Natural)" 7 =
      "sonic_ai_" ++
        String.mk ((collapseWs (removeParens ("Zephyr (Natural)" : String).data)).map Char.toLower) ++
        "_" ++ toString (7 : Nat) ++ ".wav" :=
  (handleDownloadFilename_amended "Zephyr (Natural)" 7).1

/-- Counterexample to C8: `atob` (and hence `decodeBase64`) rejects the
five-character string "AAAAA" even though every character lies inside the
base64 alphabet and no padding is involved — failure is not solely a
matter of out-of-alphabet characters. -/
theorem decodeBase64_counterexample :
    (∀ c ∈ ("AAAAA" : String).data, (b64Val c).isSome) ∧
      decodeBase64 "AAAAA" = none := by
  constructor
  · decide
  · decide

/-- C8 as amended: `decodeBase64` fails exactly when, after removing ASCII
whitespace and then valid padding, the remaining data has length congruent
1 mod 4 or still contains a character outside the base64 alphabet; on
every other input it returns the decoded byte sequence (for example
"QUJD" decodes to the bytes of "ABC"). -/
theorem decodeBase64_spec :
    (∀ s : String,
      decodeBase64 s = none ↔
        ((stripPad (stripWs s.data)).length % 4 = 1 ∨
          ∃ c ∈ stripPad (stripWs s.data), b64Val c = none)) ∧
    decodeBase64 "QUJD" = some [65, 66, 67] := by
  constructor
  · intro s
    simp only [decodeBase64, atob]
    by_cases h : (stripPad (stripWs s.data)).length % 4 = 1
    · simp [h]
    · rw [if_neg h]
      cases hv : b64Vals (stripPad (stripWs s.data)) with
      | none =>
        simp only [hv]
        simp [(b64Vals_none_iff _).mp hv]
      | some vs =>
        simp only [hv]
        constructor
        · intro hc
          exact absurd hc (by simp)
        · intro hc
          rcases hc with hc | hc
          · exact absurd hc h
          · have hnone := (b64Vals_none_iff _).mpr hc
            rw [hv] at hnone
            exact absurd hnone (by simp)
  · decide

/-- Witness for C8's amended statement: "AAAA=" (stripped length 5, which
is congruent 1 mod 4) is rejected. -/
theorem decodeBase64_spec_witness : decodeBase64 "AAAA=" = none :=
  (decodeBase64_spec.1 "AAAA=").mpr (Or.inl (by decide))

/-- C10 as amended: the stored display text is always exactly the first
100 characters of the synthesized text with "..." appended (hence always
ends in "..."), its length is `min L 100 + 3`, and whenever the original
is longer than 100 characters the stored text differs from it, except in
the single case where the original is exactly its own first 100
characters followed by "..." (in particular it differs whenever the
length is neither 100-or-less nor exactly 103). -/
theorem newAudio_text (t id : String) (ts : Nat) (voice : String)
    (ty : AudioType) (b64 : String) (p : SpeechParams) (lang : String) :
    (newAudio t id ts voice ty b64 p lang).text = String.mk (t.data.take 100) ++ "..." ∧
    (newAudio t id ts voice ty b64 p lang).text.length = min 100 t.length + 3 ∧
    (100 < t.length → t ≠ String.mk (t.data.take 100) ++ "..." →
      (newAudio t id ts voice ty b64 p lang).text ≠ t) ∧
    (100 < t.length → t.length ≠ 103 → (newAudio t id ts voice ty b64 p lang).text ≠ t) := by
  have hlen : (newAudio t id ts voice ty b64 p lang).text.length = min 100 t.length + 3 := by
    show (String.mk (t.data.take 100) ++ "...").length = min 100 t.length + 3
    rw [String.length_append, String.length_mk, List.length_take]
    rfl
  refine ⟨rfl, hlen, ?_, ?_⟩
  · intro _ hne heq
    exact hne heq.symm
  · intro h100 h103 heq
    have : (newAudio t id ts voice ty b64 p lang).text.length = t.length := by rw [heq]
    rw [hlen] at this
    omega

/-- Witness for C10's amended statement: a 104-character text is stored
truncated and differs from the original. -/
theorem newAudio_text_witness :
    100 < (String.mk (List.replicate 104 'a')).length ∧
      (String.mk (List.replicate 104 'a')).length ≠ 103 ∧
      (newAudio (String.mk (List.replicate 104 'a')) "id" 0 "Kore" AudioType.single ""
          { rate := 1, volume := 1, pitch := 1, pauseIntensity := 1,
            naturalness := 1, stability := 1, clarity := 1 } "English").text ≠
        String.mk (List.replicate 104 'a') :=
  ⟨by decide, by decide,
    (newAudio_text (String.mk (List.replicate 104 'a')) "id" 0 "Kore" AudioType.single ""
        { rate := 1, volume := 1, pitch := 1, pauseIntensity := 1,
          naturalness := 1, stability := 1, clarity := 1 } "English").2.2.2
      (by decide) (by decide)⟩

/-- Counterexample to C10's final clause: a 103-character text consisting
of 100 characters followed by "..." is longer than 100 characters yet the
stored text equals the original exactly. -/
theorem newAudio_text_counterexample :
    100 < (String.mk (List.replicate 100 'a') ++ "...").length ∧
      (newAudio (String.mk (List.replicate 100 'a') ++ "...") "id" 0 "Kore" AudioType.single ""
          { rate := 1, volume := 1, pitch := 1, pauseIntensity := 1,
            naturalness := 1, stability := 1, clarity := 1 } "English").text =
        String.mk (List.replicate 100 'a') ++ "..." := by
  constructor
  · decide
  · show String.mk ((String.mk (List.replicate 100 'a') ++ "...").data.take 100) ++ "..." =
      String.mk (List.replicate 100 'a') ++ "..."
    have hdata : (String.mk (List.replicate 100 'a') ++ "...").data.take 100 =
        List.replicate 100 'a' := by
      rw [String.data_append]
      exact List.take_left' (by simp)
    rw [hdata]

end SonicAI
